import Mathlib

/-!
Verification of the collaboration core of this repository against its design
document.  The embedding covers:

* `src/vs/workbench/services/collaboration/browser/collaborationService.ts` —
  the connection service (`connect`, `disconnect`, the `ws.onopen` /
  `ws.onclose` / `ws.onerror` handlers, `handleDisconnect`, `updateUsers`,
  `setState`), modelled as pure functions over an explicit service state that
  also return the list of events fired during the call;
* `src/vs/workbench/common/documentBinding.ts` — the document binding
  (`setupListeners`, `handleTextModelChange`, `handleYjsChange`), modelled over
  text represented as `List Char`, with the synchronous re-entrant
  notifications (`applyEdits` firing the content listener, `transact` firing
  the Y.Text observer) made explicit.

External collaborators (the WebSocket, the yjs document/awareness objects, the
host `ITextModel`) are modelled at their interfaces: their effects enter the
model as plain inputs (for example the awareness snapshot after
`setLocalStateField`, or the close event a closed WebSocket delivers to its
registered `onclose` handler).
-/

/-! ## Basic data types -/

/-- Text content, one character per entry (the model of both the
`ITextModel` buffer and of a `Y.Text`'s visible string). -/
abbrev Txt := List Char

/-- Connection state enum from `src/vs/workbench/common/collaboration.ts`
(`CollaborationState`). -/
inductive CollaborationState where
  | disconnected
  | connecting
  | connected
  | error
deriving DecidableEq, Repr

/-- Participant record (`ICollaborationUser`): id, display name, color.
The optional cursor is never consulted by the code under study. -/
structure CollabUser where
  id : String
  name : String
  color : String
deriving DecidableEq, Repr

/-- Events the service fires to its subscribers (`onDidChangeState`,
`onDidChangeUsers`). -/
inductive Ev where
  | stateChanged (st : CollaborationState)
  | usersChanged (us : List CollabUser)
deriving DecidableEq, Repr

/-- One raw entry of `awareness.getStates()`: a state object that may or may
not carry a `user` sub-record. -/
structure AwState where
  user : Option CollabUser
deriving DecidableEq, Repr

/-- Configuration record returned by `getConfiguration()`. -/
structure Config where
  enabled : Bool
  serverUrl : String
  userName : String
  autoConnect : Bool
  reconnectAttempts : Nat
  reconnectDelay : Nat
deriving DecidableEq, Repr

/-- Mutable fields of `CollaborationService` that the modelled operations
read or write: `_state`, `_users`, `_currentUser`, `reconnectAttempts`,
`reconnectTimeout`, the WebSocket handle, the awareness snapshot
(`awareness.getStates()` of the live awareness object, `none` while no
awareness object exists), and the `yjsLoaded` flag. -/
structure Svc where
  state : CollaborationState
  users : List CollabUser
  currentUser : Option CollabUser
  reconnectAttempts : Nat
  reconnectTimeout : Option Nat
  ws : Bool
  awareness : Option (List AwState)
  yjsLoaded : Bool
deriving DecidableEq, Repr

/-! ## CollaborationService operations -/

/-- The private `setState` setter (collaborationService.ts lines 287-292):
assign and fire `onDidChangeState` only when the new state differs. -/
def setState (s : Svc) (st : CollaborationState) : Svc × List Ev :=
  if s.state = st then (s, [])
  else ({ s with state := st }, [Ev.stateChanged st])

/-- The private `updateUsers` (lines 274-285): bail out when no awareness
object exists, otherwise rebuild `_users` from the awareness snapshot —
`Array.from(states.values()).map(state => state.user).filter(user => user !==
undefined)` — and fire `onDidChangeUsers` with the new list. -/
def updateUsers (s : Svc) : Svc × List Ev :=
  match s.awareness with
  | none => (s, [])
  | some states =>
    let users := (states.map AwState.user).filterMap id
    ({ s with users := users }, [Ev.usersChanged users])

/-- The private `handleDisconnect` (lines 251-272), run by the `ws.onclose`
handler: set state Disconnected; if the attempt counter is below the
configured bound, increment it and schedule one retry after
`min(reconnectDelay * 2 ^ attempts, 30000)` ms (the timer is stored in
`reconnectTimeout`); otherwise set state Error. -/
def handleDisconnect (cfg : Config) (s : Svc) : Svc × List Ev :=
  let p1 := setState s CollaborationState.disconnected
  let s1 := p1.1
  if s1.reconnectAttempts < cfg.reconnectAttempts then
    let s2 := { s1 with reconnectAttempts := s1.reconnectAttempts + 1 }
    let delay := min (cfg.reconnectDelay * 2 ^ s2.reconnectAttempts) 30000
    ({ s2 with reconnectTimeout := some delay }, p1.2)
  else
    let p2 := setState s1 CollaborationState.error
    (p2.1, p1.2 ++ p2.2)

/-- Result of the synchronous part of `connect()` (lines 110-153): either the
early return when already Connecting/Connected, the thrown configuration
error when the feature is disabled, or the normal path that enters Connecting,
loads yjs (creating the Y.Doc and Awareness objects on first use) and creates
the WebSocket. -/
inductive ConnectOutcome where
  | alreadyActive
  | configError
  | proceeding
deriving DecidableEq, Repr

/-- The synchronous prefix of `connect()` (lines 110-153): the
already-active guard, the disabled guard (a thrown error, before
`setState(Connecting)` ever runs), then `setState(Connecting)`, the lazy yjs
load (a fresh Awareness object holds exactly the local client with an empty
state object, hence no `user` field), and the WebSocket creation. -/
def connectStep (cfg : Config) (s : Svc) : Svc × List Ev × ConnectOutcome :=
  if s.state = CollaborationState.connected ∨ s.state = CollaborationState.connecting then
    (s, [], ConnectOutcome.alreadyActive)
  else if cfg.enabled = false then
    (s, [], ConnectOutcome.configError)
  else
    let p := setState s CollaborationState.connecting
    let aw := match p.1.awareness with
      | none => some [AwState.mk none]
      | some states => some states
    ({ p.1 with yjsLoaded := true, awareness := aw, ws := true }, p.2, ConnectOutcome.proceeding)

/-- The `ws.onopen` handler (lines 155-173): set state Connected, reset the
attempt counter to 0, assign `_currentUser`, and when the awareness object
exists publish the user into it (`setLocalStateField`) and run `updateUsers`.
The snapshot the external awareness object holds after `setLocalStateField`
is an input (`awAfter`), as is the generated user record. -/
def handleOpen (u : CollabUser) (awAfter : List AwState) (s : Svc) : Svc × List Ev :=
  let p1 := setState s CollaborationState.connected
  let s2 := { p1.1 with reconnectAttempts := 0, currentUser := some u }
  match s2.awareness with
  | none => (s2, p1.2)
  | some _ =>
    let s3 := { s2 with awareness := some awAfter }
    let p2 := updateUsers s3
    (p2.1, p1.2 ++ p2.2)

/-- The `ws.onerror` handler (lines 184-188): set state Error. -/
def handleWsError (s : Svc) : Svc × List Ev :=
  setState s CollaborationState.error

/-- Result of `disconnect()`: the new service state, the events fired, and
whether a transport close event is still going to be delivered to the
`ws.onclose` handler installed by `connect()` (lines 179-182).  Calling
`WebSocket.close()` fires the close event, and `disconnect()` nulls the `ws`
field without removing the handler, so the flag is set exactly when a socket
existed. -/
structure DisconnectResult where
  st : Svc
  events : List Ev
  closeEventPending : Bool
deriving DecidableEq, Repr

/-- The public `disconnect()` (lines 206-224): cancel any pending reconnect
timer, close and drop the WebSocket, clear `_currentUser` and `_users`, set
state Disconnected, and unconditionally fire `onDidChangeUsers([])`. -/
def disconnect (s : Svc) : DisconnectResult :=
  let s1 := { s with reconnectTimeout := none }
  let hadWs := s1.ws
  let s2 := { s1 with ws := false }
  let s3 := { s2 with currentUser := none, users := [] }
  let p := setState s3 CollaborationState.disconnected
  ⟨p.1, p.2 ++ [Ev.usersChanged []], hadWs⟩

/-! ## Operation sequencing (for the event-trace invariant) -/

/-- One externally triggered operation on the service: a `connect()` call, the
transport callbacks (`onopen` with the generated user and resulting awareness
snapshot, `onerror`, `onclose`), a `disconnect()` call, an awareness change
(the new snapshot, followed by the `change` listener running `updateUsers`),
or the reconnect timer firing (which clears the pending timer and calls
`connect()`). -/
inductive SvcOp where
  | connectOp
  | openOp (u : CollabUser) (awAfter : List AwState)
  | errorOp
  | closeOp
  | disconnectOp
  | awarenessOp (states : List AwState)
  | retryOp
deriving Repr

/-- Dispatch one operation, returning the new service state and the events
fired during it. -/
def svcStep (cfg : Config) (s : Svc) : SvcOp → Svc × List Ev
  | SvcOp.connectOp =>
    let r := connectStep cfg s
    (r.1, r.2.1)
  | SvcOp.openOp u awAfter => handleOpen u awAfter s
  | SvcOp.errorOp => handleWsError s
  | SvcOp.closeOp => handleDisconnect cfg s
  | SvcOp.disconnectOp =>
    let r := disconnect s
    (r.st, r.events)
  | SvcOp.awarenessOp states =>
    updateUsers { s with awareness := some states }
  | SvcOp.retryOp =>
    match s.reconnectTimeout with
    | none => (s, [])
    | some _ =>
      let r := connectStep cfg { s with reconnectTimeout := none }
      (r.1, r.2.1)

/-- Run a sequence of operations, concatenating the fired events. -/
def svcRun (cfg : Config) (s : Svc) : List SvcOp → Svc × List Ev
  | [] => (s, [])
  | op :: ops =>
    let p := svcStep cfg s op
    let q := svcRun cfg p.1 ops
    (q.1, p.2 ++ q.2)

/-- States carried by the `stateChanged` events of an event list, in order. -/
def emittedStates (evs : List Ev) : List CollaborationState :=
  evs.filterMap fun e =>
    match e with
    | Ev.stateChanged st => some st
    | Ev.usersChanged _ => none

/-- The states of a `stateChanged` event sequence are pairwise distinct from
their predecessor, the predecessor of the first being `pre` (the `_state`
value before the sequence was emitted). -/
def stChain : CollaborationState → List CollaborationState → Prop
  | _, [] => True
  | p, v :: vs => p ≠ v ∧ stChain v vs

/-- The last state of a `stateChanged` sequence, defaulting to `pre`. -/
def stLast : CollaborationState → List CollaborationState → CollaborationState
  | p, [] => p
  | _, v :: vs => stLast v vs

/-- A call that starts with `_state = pre` emits the event list `evs` and ends
with `_state = post`, and the emitted state-changed values form a
no-adjacent-repeat chain out of `pre`. -/
def StateTrace (pre : CollaborationState) (evs : List Ev) (post : CollaborationState) : Prop :=
  stChain pre (emittedStates evs) ∧ stLast pre (emittedStates evs) = post

/-- The service state at construction time (field initializers of
`CollaborationService`). -/
def initialSvc : Svc :=
  { state := CollaborationState.disconnected
    users := []
    currentUser := none
    reconnectAttempts := 0
    reconnectTimeout := none
    ws := false
    awareness := none
    yjsLoaded := false }

/-- Default configuration values of `getConfiguration()` (lines 294-306). -/
def defaultConfig : Config :=
  { enabled := true
    serverUrl := "ws://localhost:4003"
    userName := ""
    autoConnect := true
    reconnectAttempts := 10
    reconnectDelay := 1000 }

/-! ## DocumentBinding: data types -/

/-- A (line, column) position as returned by `ITextModel.getPositionAt`,
1-based on both coordinates. -/
structure TPos where
  lineNumber : Nat
  column : Nat
deriving DecidableEq, Repr

/-- The range literal of the edit objects built by `handleYjsChange`. -/
structure ERange where
  startLineNumber : Nat
  startColumn : Nat
  endLineNumber : Nat
  endColumn : Nat
deriving DecidableEq, Repr

/-- One edit object pushed by `handleYjsChange` and handed to
`ITextModel.applyEdits`. -/
structure MEdit where
  range : ERange
  text : Txt
deriving DecidableEq, Repr

/-- One entry of `event.changes` in a VS Code `ITextModel` content-change
event: `{ rangeOffset, rangeLength, text }` (the `range` field of the source
event is never read by the binding). -/
structure ChangeItem where
  rangeOffset : Nat
  rangeLength : Nat
  text : Txt
deriving DecidableEq, Repr

/-- One operation of a `YTextEvent` delta.  `insertOp (some s)` is an insert
whose payload is the string `s`; `insertOp none` is an insert whose payload is
not a string (an embed), which the code coerces to the empty string;
`unknownOp` is an object carrying none of the three recognized tags. -/
inductive DeltaOp where
  | retainOp (n : Nat)
  | insertOp (s : Option Txt)
  | deleteOp (n : Nat)
  | unknownOp
deriving DecidableEq, Repr

/-! ## PositionMapper (the `ITextModel` offset/position interface) -/

/-- Walk `doc`, consuming `n` characters while tracking the 1-based line and
column. -/
def offsetWalk : Txt → Nat → Nat → Nat → TPos
  | _, 0, l, c => ⟨l, c⟩
  | [], _ + 1, l, c => ⟨l, c⟩
  | ch :: rest, n + 1, l, c =>
    if ch = '\n' then offsetWalk rest n (l + 1) 1 else offsetWalk rest n l (c + 1)

/-- Model of `ITextModel.getPositionAt doc offset` (an external collaborator):
the 1-based (line, column) of the character index `offset`, with the offset
clamped into `[0, doc.length]`. -/
def getPositionAt (doc : Txt) (offset : Nat) : TPos :=
  offsetWalk doc (min offset doc.length) 1 1

/-- Inverse mapping used to model `ITextModel.applyEdits`: character offset
of a 1-based (line, column), consuming whole lines first and then columns
without crossing a line break. -/
def posToOffset : Txt → Nat → Nat → Nat
  | [], _, _ => 0
  | ch :: rest, l, c =>
    if 1 < l then
      if ch = '\n' then 1 + posToOffset rest (l - 1) c
      else 1 + posToOffset rest l c
    else if 1 < c ∧ ch ≠ '\n' then 1 + posToOffset rest 1 (c - 1)
    else 0

/-! ## DocumentBinding: local to remote translation (`handleTextModelChange`) -/

/-- Delete `len` characters of a `Y.Text` at `off`
(`ytext.delete(offset, length)`). -/
def ytextDelete (t : Txt) (off len : Nat) : Txt :=
  t.take off ++ t.drop (off + len)

/-- Insert `s` into a `Y.Text` at `off` (`ytext.insert(offset, text)`). -/
def ytextInsert (t : Txt) (off : Nat) (s : Txt) : Txt :=
  t.take off ++ s ++ t.drop off

/-- The loop body of `handleTextModelChange` (documentBinding.ts lines
92-106): for one change, first delete `rangeLength` characters at
`rangeOffset` when positive, then insert `text` at the same offset when
non-empty. -/
def applyChange (t : Txt) (c : ChangeItem) : Txt :=
  let t1 := if 0 < c.rangeLength then ytextDelete t c.rangeOffset c.rangeLength else t
  if 0 < c.text.length then ytextInsert t1 c.rangeOffset c.text else t1

/-- The `Y.Text` content after `handleTextModelChange` (lines 84-108): the
changes array is copied, reversed (`[...event.changes].reverse()`), and each
change is applied in that order inside one `ydoc.transact`. -/
def handleTextModelChangeTxt (t : Txt) (changes : List ChangeItem) : Txt :=
  changes.reverse.foldl applyChange t

/-- A single `Y.Text` mutation issued by `handleTextModelChange`. -/
inductive YTextOp where
  | del (off len : Nat)
  | ins (off : Nat) (s : Txt)
deriving DecidableEq, Repr

/-- The `Y.Text` operations one change gives rise to: the conditional delete
followed by the conditional insert. -/
def changeOps (c : ChangeItem) : List YTextOp :=
  (if 0 < c.rangeLength then [YTextOp.del c.rangeOffset c.rangeLength] else []) ++
  (if 0 < c.text.length then [YTextOp.ins c.rangeOffset c.text] else [])

/-- The full ordered `Y.Text` operation sequence of one
`handleTextModelChange` transaction: the per-change operations, changes taken
in reverse of their order in the notification. -/
def transactionOps (changes : List ChangeItem) : List YTextOp :=
  changes.reverse.flatMap changeOps

/-- Apply one `Y.Text` operation. -/
def applyYTextOp (t : Txt) : YTextOp → Txt
  | YTextOp.del off len => ytextDelete t off len
  | YTextOp.ins off s => ytextInsert t off s

/-! ## DocumentBinding: remote to local translation (`handleYjsChange`) -/

/-- The `event.delta.forEach` body of `handleYjsChange` (lines 117-151), as a
fold step over the pair (cursor index, edits accumulated so far): `retain`
advances the index; `insert` pushes a zero-width edit at the position of the
current index (payload coerced to `''` when not a string) and advances the
index by the payload length; `delete` pushes an edit spanning the positions of
the index and of index + n with empty text; anything else takes no branch. -/
def yjsStep (doc : Txt) : Nat × List MEdit → DeltaOp → Nat × List MEdit
  | (index, edits), DeltaOp.retainOp n => (index + n, edits)
  | (index, edits), DeltaOp.insertOp s =>
    let pos := getPositionAt doc index
    let text := s.getD []
    (index + text.length,
      edits ++ [⟨⟨pos.lineNumber, pos.column, pos.lineNumber, pos.column⟩, text⟩])
  | (index, edits), DeltaOp.deleteOp n =>
    let pos := getPositionAt doc index
    let endPos := getPositionAt doc (index + n)
    (index,
      edits ++ [⟨⟨pos.lineNumber, pos.column, endPos.lineNumber, endPos.column⟩, []⟩])
  | (index, edits), DeltaOp.unknownOp => (index, edits)

/-- The edit list `handleYjsChange` accumulates for a delta, starting from
cursor index 0 and an empty list. -/
def computeEdits (doc : Txt) (delta : List DeltaOp) : List MEdit :=
  (delta.foldl (yjsStep doc) (0, [])).2

/-- Model of `ITextModel.applyEdits` (an external collaborator) for the
batches this binding produces: every range refers to the document before the
batch, so the edits — accumulated in ascending cursor order — are applied
from the last one backwards. -/
def applyOneEdit (doc : Txt) (e : MEdit) : Txt :=
  let s := posToOffset doc e.range.startLineNumber e.range.startColumn
  let t := posToOffset doc e.range.endLineNumber e.range.endColumn
  doc.take s ++ e.text ++ doc.drop t

/-- Apply a whole edit batch (see `applyOneEdit`). -/
def applyEditBatch (doc : Txt) (edits : List MEdit) : Txt :=
  edits.reverse.foldl applyOneEdit doc

/-! ## DocumentBinding: the guarded listeners

The two listeners installed by `setupListeners` (lines 40-81) share the
`updating` flag: each drops its notification when the flag is held, and
otherwise holds it for the duration of its handler (the `finally` releases it
on every exit).  Mutating one side from inside a handler synchronously
notifies the other side's listener — `applyEdits` fires the content-change
listener, and a `transact` that changed the `Y.Text` fires the observer — so
the two listeners are mutually recursive; the recursion is bounded because
the re-entrant call always finds the flag held, and the `fuel` parameter
makes that bound explicit (fuel 2 is enough, and larger fuel gives the same
result: see `yObserver_fuel` and `contentListener_fuel`). -/

/-- State of one binding together with the two documents it couples: the host
text buffer (`doc`), the `Y.Text` content (`ytext`), the `updating` guard,
and two effect counters — `localBatches` counts `ITextModel.applyEdits`
calls, `ytrans` counts `ydoc.transact` calls. -/
structure BindingW where
  doc : Txt
  ytext : Txt
  updating : Bool
  localBatches : Nat
  ytrans : Nat
deriving DecidableEq, Repr

mutual

/-- The `Y.Text` observer (lines 59-71 plus `handleYjsChange`): drop when the
guard is held, else hold the guard, translate the delta, apply the non-empty
edit batch to the text model (which synchronously notifies the content
listener; the listener ignores its argument when it finds the guard held),
and release the guard. -/
def yObserver : Nat → BindingW → List DeltaOp → BindingW
  | 0, w, _ => w
  | Nat.succ fuel, w, delta =>
    if w.updating then w
    else
      let w1 := { w with updating := true }
      let edits := computeEdits w1.doc delta
      let w2 :=
        if edits.isEmpty then w1
        else
          let w' := { w1 with
            doc := applyEditBatch w1.doc edits
            localBatches := w1.localBatches + 1 }
          contentListener fuel w' []
      { w2 with updating := false }

/-- The `onDidChangeContent` listener (lines 42-55 plus
`handleTextModelChange`): drop when the guard is held, else hold the guard,
run one `ydoc.transact` translating the change list into `Y.Text` deletes and
inserts (a transaction that changed the `Y.Text` synchronously fires the
observer; the observer ignores its argument when it finds the guard held),
and release the guard. -/
def contentListener : Nat → BindingW → List ChangeItem → BindingW
  | 0, w, _ => w
  | Nat.succ fuel, w, changes =>
    if w.updating then w
    else
      let w1 := { w with updating := true }
      let newY := handleTextModelChangeTxt w1.ytext changes
      let w' := { w1 with ytext := newY, ytrans := w1.ytrans + 1 }
      let w2 := if newY = w1.ytext then w' else yObserver fuel w' []
      { w2 with updating := false }

end

/-- Deliver a remote `Y.Text` delta to the binding (the observer entry
point). -/
def deliverRemote (w : BindingW) (delta : List DeltaOp) : BindingW :=
  yObserver 2 w delta

/-- Deliver a host content-change notification to the binding (the
`onDidChangeContent` entry point). -/
def deliverLocal (w : BindingW) (changes : List ChangeItem) : BindingW :=
  contentListener 2 w changes

/-- Observer registration state of a `DocumentBinding`, for `dispose`
(lines 76-80 and 174-176): disposing unregisters the `Y.Text` observer and
the content listener; it never touches either document. -/
structure BindingReg where
  world : BindingW
  observing : Bool
deriving DecidableEq, Repr

/-- The `dispose` of `DocumentBinding`: run the registered cleanup
(`ytext.unobserve`, listener disposal); content is untouched. -/
def disposeBinding (b : BindingReg) : BindingReg :=
  { b with observing := false }

/-! ## Specification-side reference definitions

These two definitions follow the wording of the design document, not the
source; the refinement theorems compare them with the source translations
above. -/

/-- Reference semantics written from the spec's remote-to-local walk: keep a
running cursor index from 0; `retain(n)` advances the index by `n`;
`insert(text)` records a zero-width-range edit at the (line, column) of the
current index and advances the index by the text's length; `delete(n)`
records an edit over the range from the position of the index to the position
of index + n with empty replacement text; an operation with an unrecognized
tag is ignored per-operation.  A non-string insert payload is outside the
spec's vocabulary and is skipped here; the refinement theorem therefore
assumes the delta carries none. -/
def specWalk (doc : Txt) : Nat → List DeltaOp → List MEdit
  | _, [] => []
  | i, DeltaOp.retainOp n :: ops => specWalk doc (i + n) ops
  | i, DeltaOp.insertOp (some s) :: ops =>
    let pos := getPositionAt doc i
    ⟨⟨pos.lineNumber, pos.column, pos.lineNumber, pos.column⟩, s⟩ ::
      specWalk doc (i + s.length) ops
  | i, DeltaOp.insertOp none :: ops => specWalk doc i ops
  | i, DeltaOp.deleteOp n :: ops =>
    let pos := getPositionAt doc i
    let endPos := getPositionAt doc (i + n)
    ⟨⟨pos.lineNumber, pos.column, endPos.lineNumber, endPos.column⟩, []⟩ ::
      specWalk doc i ops
  | i, DeltaOp.unknownOp :: ops => specWalk doc i ops

/-- Reference semantics written from the spec's words for applying an edit
list to a string under standard left-to-right simultaneous semantics: every
`rangeOffset` refers to the original string, the edits are listed in
ascending offset order and do not overlap, and each one replaces the
`rangeLength` characters at its offset with its `text`.  `base` is the offset
of the first character of `t` within the original string. -/
def simultaneousApply : Txt → Nat → List ChangeItem → Txt
  | t, _, [] => t
  | t, base, c :: rest =>
    t.take (c.rangeOffset - base) ++ c.text ++
      simultaneousApply (t.drop (c.rangeOffset - base + c.rangeLength))
        (c.rangeOffset + c.rangeLength) rest

/-- Recognized delta operations that contribute an edit: inserts and deletes
(`retain` only moves the cursor, unrecognized tags take no branch). -/
def isContentOp : DeltaOp → Bool
  | DeltaOp.insertOp _ => true
  | DeltaOp.deleteOp _ => true
  | DeltaOp.retainOp _ => false
  | DeltaOp.unknownOp => false

/-! ## Concrete test fixtures -/

/-- Sample user records. -/
def u1ex : CollabUser := ⟨"user-1", "Alice", "#FF6B6B"⟩

/-- Second sample user record. -/
def u2ex : CollabUser := ⟨"user-2", "Kim", "#4ECDC4"⟩

/-- A connected service state: one open socket, yjs loaded, the local client
present in awareness. -/
def connectedSvc : Svc :=
  { state := CollaborationState.connected
    users := [u1ex]
    currentUser := some u1ex
    reconnectAttempts := 0
    reconnectTimeout := none
    ws := true
    awareness := some [AwState.mk (some u1ex)]
    yjsLoaded := true }

/-- A connected service state with two participants, for the
presence-removal and double-disconnect scenarios. -/
def twoUserSvc : Svc :=
  { state := CollaborationState.connected
    users := [u1ex, u2ex]
    currentUser := some u1ex
    reconnectAttempts := 0
    reconnectTimeout := none
    ws := true
    awareness := some [AwState.mk (some u1ex), AwState.mk (some u2ex)]
    yjsLoaded := true }

/-- The reference string of the reverse-order example: `0123456789AB`. -/
def c4Doc : Txt := ['0', '1', '2', '3', '4', '5', '6', '7', '8', '9', 'A', 'B']

/-- The edit list exactly as the claim writes it: the offset-10 edit listed
first, the offset-2 edit second. -/
def c4ChangesAsWritten : List ChangeItem := [⟨10, 0, ['X']⟩, ⟨2, 3, ['Y', 'Z']⟩]

/-- The same two edits listed in ascending offset order, the order VS Code
delivers them in a content-change notification. -/
def c4ChangesAscending : List ChangeItem := [⟨2, 3, ['Y', 'Z']⟩, ⟨10, 0, ['X']⟩]

/-- A quiescent binding world (guard not held). -/
def bw0 : BindingW :=
  { doc := ['a', 'b'], ytext := ['a', 'b'], updating := false, localBatches := 0, ytrans := 0 }

/-- A binding world whose guard is currently held. -/
def bwHeld : BindingW :=
  { doc := ['a', 'b'], ytext := ['a', 'b'], updating := true, localBatches := 0, ytrans := 0 }

/-- A one-insert remote delta. -/
def d0 : List DeltaOp := [DeltaOp.retainOp 1, DeltaOp.insertOp (some ['X'])]

/-- A one-insert local change notification. -/
def ch0 : List ChangeItem := [⟨1, 0, ['X']⟩]

/-! # Theorems -/

/-! ## Supporting lemmas: `handleTextModelChange` (local to remote) -/

/-- Unconditional closed form of one change application: delete-then-insert
at the same offset equals splicing `text` over the removed segment, as long
as the offset is in range. -/
theorem applyChange_eq (t : Txt) (c : ChangeItem) (h : c.rangeOffset ≤ t.length) :
    applyChange t c =
      t.take c.rangeOffset ++ c.text ++ t.drop (c.rangeOffset + c.rangeLength) := by
  have hlen : (t.take c.rangeOffset).length = c.rangeOffset := by
    rw [List.length_take]; exact inf_eq_left.mpr h
  have ht1 : (if 0 < c.rangeLength then ytextDelete t c.rangeOffset c.rangeLength else t) =
      t.take c.rangeOffset ++ t.drop (c.rangeOffset + c.rangeLength) := by
    by_cases h1 : 0 < c.rangeLength
    · simp [h1, ytextDelete]
    · have h0 : c.rangeLength = 0 := by omega
      simp [h1, h0, List.take_append_drop]
  have hins : ytextInsert (t.take c.rangeOffset ++ t.drop (c.rangeOffset + c.rangeLength))
      c.rangeOffset c.text =
      t.take c.rangeOffset ++ c.text ++ t.drop (c.rangeOffset + c.rangeLength) := by
    unfold ytextInsert
    rw [List.take_append_eq_append_take, List.drop_append_eq_append_drop, hlen]
    have hz : c.rangeOffset - c.rangeOffset = 0 := by omega
    rw [hz]
    have hA : (t.take c.rangeOffset).take c.rangeOffset = t.take c.rangeOffset := by
      rw [List.take_take]; congr 1; omega
    have hB : (t.take c.rangeOffset).drop c.rangeOffset = [] :=
      List.drop_eq_nil_of_le (by rw [hlen])
    rw [hA, hB]
    simp
  unfold applyChange
  rw [ht1]
  by_cases h2 : 0 < c.text.length
  · rw [if_pos h2, hins]
  · have h0 : c.text = [] := by
      rw [← List.length_eq_zero]; omega
    simp [h2, h0]

/-- Applying the higher-offset edit first and the lower-offset edit second
yields the simultaneous application of both, whenever the two edits are
non-overlapping and in range. -/
theorem applyChange_pair (t : Txt) (a b : ChangeItem)
    (hab : a.rangeOffset + a.rangeLength ≤ b.rangeOffset)
    (hb : b.rangeOffset + b.rangeLength ≤ t.length) :
    applyChange (applyChange t b) a = simultaneousApply t 0 [a, b] := by
  have hb0 : b.rangeOffset ≤ t.length := le_trans (Nat.le_add_right _ _) hb
  have hab0 : a.rangeOffset ≤ b.rangeOffset := le_trans (Nat.le_add_right _ _) hab
  have hlenA : (t.take b.rangeOffset).length = b.rangeOffset := by
    rw [List.length_take]; exact inf_eq_left.mpr hb0
  rw [applyChange_eq t b hb0]
  have hua : a.rangeOffset ≤
      (t.take b.rangeOffset ++ b.text ++ t.drop (b.rangeOffset + b.rangeLength)).length := by
    simp only [List.length_append, hlenA]; omega
  rw [applyChange_eq _ a hua]
  set k := a.rangeOffset + a.rangeLength with hk
  have e1 : (t.take b.rangeOffset ++ b.text ++ t.drop (b.rangeOffset + b.rangeLength)).take
      a.rangeOffset = t.take a.rangeOffset := by
    rw [List.append_assoc, List.take_append_eq_append_take, hlenA]
    have hz : a.rangeOffset - b.rangeOffset = 0 := by omega
    rw [hz, List.take_take]
    simp only [List.take_zero, List.append_nil]
    congr 1; omega
  have e2 : (t.take b.rangeOffset ++ b.text ++ t.drop (b.rangeOffset + b.rangeLength)).drop k =
      (t.drop k).take (b.rangeOffset - k) ++ b.text ++ t.drop (b.rangeOffset + b.rangeLength) := by
    rw [List.append_assoc, List.drop_append_eq_append_drop, hlenA]
    have hz : k - b.rangeOffset = 0 := by omega
    rw [hz, List.drop_take, List.drop_zero, ← List.append_assoc]
  rw [e1, e2]
  simp only [simultaneousApply, Nat.sub_zero]
  have e3 : b.rangeOffset - k + b.rangeLength = b.rangeOffset + b.rangeLength - k := by omega
  have e4 : (t.drop k).drop (b.rangeOffset + b.rangeLength - k) =
      t.drop (b.rangeOffset + b.rangeLength) := by
    rw [List.drop_drop]; congr 1; omega
  rw [e3, e4]

/-- One change equals folding its own operation list. -/
theorem applyChange_ops (t : Txt) (c : ChangeItem) :
    applyChange t c = (changeOps c).foldl applyYTextOp t := by
  unfold applyChange changeOps
  by_cases h1 : 0 < c.rangeLength <;> by_cases h2 : 0 < c.text.length <;>
    simp [h1, h2, applyYTextOp]

/-- The transaction content equals folding the full ordered operation
sequence. -/
theorem handleTextModelChangeTxt_ops (t : Txt) (changes : List ChangeItem) :
    handleTextModelChangeTxt t changes = (transactionOps changes).foldl applyYTextOp t := by
  unfold handleTextModelChangeTxt transactionOps
  generalize changes.reverse = l
  induction l generalizing t with
  | nil => simp
  | cons c cs ih =>
    simp only [List.foldl_cons, List.flatMap_cons, List.foldl_append, ← applyChange_ops]
    exact ih (applyChange t c)

/-- C4, counterexample.  The claim instantiates its own general sentence at
the edit list `[{offset:10, removedLength:0, insertedText:"X"}, {offset:2,
removedLength:3, insertedText:"YZ"}]` and asserts that the offset-10 edit is
applied to the `SharedText` first and that the final content matches
simultaneous left-to-right application.  On the reference string
`0123456789AB` the code — which reverses the delivered array rather than
sorting by offset — issues the offset-2 operations first (`delete(2,3)`,
`insert(2,"YZ")`, then `insert(10,"X")`) and produces `01YZ56789AXB`, while
simultaneous application of the two edits produces `01YZ56789XAB`. -/
theorem c4_counterexample :
    handleTextModelChangeTxt c4Doc c4ChangesAsWritten =
      ['0', '1', 'Y', 'Z', '5', '6', '7', '8', '9', 'A', 'X', 'B'] ∧
    simultaneousApply c4Doc 0 c4ChangesAscending =
      ['0', '1', 'Y', 'Z', '5', '6', '7', '8', '9', 'X', 'A', 'B'] ∧
    handleTextModelChangeTxt c4Doc c4ChangesAsWritten ≠
      simultaneousApply c4Doc 0 c4ChangesAscending ∧
    transactionOps c4ChangesAsWritten =
      [YTextOp.del 2 3, YTextOp.ins 2 ['Y', 'Z'], YTextOp.ins 10 ['X']] := by
  decide

/-- C4, amended.  On a local change notification carrying multiple edits, the
binding translates the edits in reverse of the order they appear in the
notification (so highest offset first exactly when the notification lists its
edits in ascending offset order, which is how the host delivers them),
issuing for each edit a delete at its offset when `removedLength > 0`
followed by an insert at the same offset when `insertedText` is non-empty;
for any two edits listed in ascending non-overlapping offset order — in
particular the offset-2/offset-10 example — the higher-offset edit is applied
to the `SharedText` first and the final content equals applying both edits to
the original string under simultaneous left-to-right semantics. -/
theorem c4_reverse_order_translation :
    (∀ (changes : List ChangeItem) (c : ChangeItem),
      transactionOps (changes ++ [c]) = changeOps c ++ transactionOps changes) ∧
    (∀ (t : Txt) (changes : List ChangeItem),
      handleTextModelChangeTxt t changes = (transactionOps changes).foldl applyYTextOp t) ∧
    (∀ (t : Txt) (a b : ChangeItem),
      a.rangeOffset + a.rangeLength ≤ b.rangeOffset →
      b.rangeOffset + b.rangeLength ≤ t.length →
      handleTextModelChangeTxt t [a, b] =
        applyChange (applyChange t b) a ∧
      handleTextModelChangeTxt t [a, b] = simultaneousApply t 0 [a, b]) := by
  refine ⟨?_, handleTextModelChangeTxt_ops, ?_⟩
  · intro changes c
    simp [transactionOps, List.reverse_append]
  · intro t a b hab hb
    constructor
    · simp [handleTextModelChangeTxt]
    · show (List.reverse [a, b]).foldl applyChange t = _
      simp only [List.reverse_cons, List.reverse_nil, List.nil_append, List.cons_append,
        List.foldl_cons, List.foldl_nil]
      exact applyChange_pair t a b hab hb

/-- C4, witness for the amended theorem: the two example edits delivered in
ascending order produce `01YZ56789XAB`, the simultaneous-semantics result. -/
theorem c4_reverse_order_translation_witness :
    handleTextModelChangeTxt c4Doc c4ChangesAscending =
      ['0', '1', 'Y', 'Z', '5', '6', '7', '8', '9', 'X', 'A', 'B'] := by
  have h := (c4_reverse_order_translation.2.2 c4Doc ⟨2, 3, ['Y', 'Z']⟩ ⟨10, 0, ['X']⟩
    (by decide) (by decide)).2
  rw [show c4ChangesAscending = [⟨2, 3, ['Y', 'Z']⟩, ⟨10, 0, ['X']⟩] from rfl, h]
  decide

/-! ## Supporting lemmas: `handleYjsChange` (remote to local) -/

/-- An unrecognized operation leaves the fold state untouched. -/
theorem yjsStep_unknown (doc : Txt) (p : Nat × List MEdit) :
    yjsStep doc p DeltaOp.unknownOp = p := by
  cases p; rfl

/-- The source fold, started from any cursor and accumulator, appends exactly
the edits of the spec-side walk, provided every insert payload is a string. -/
theorem yjsFold_spec (doc : Txt) (delta : List DeltaOp) :
    ∀ (i : Nat) (acc : List MEdit), DeltaOp.insertOp none ∉ delta →
      (delta.foldl (yjsStep doc) (i, acc)).2 = acc ++ specWalk doc i delta := by
  induction delta with
  | nil => intro i acc _; simp [specWalk]
  | cons op ops ih =>
    intro i acc h
    have hops : DeltaOp.insertOp none ∉ ops := fun hm => h (List.mem_cons_of_mem _ hm)
    cases op with
    | retainOp n => simp [List.foldl_cons, yjsStep, specWalk, ih _ _ hops]
    | insertOp s =>
      cases s with
      | none => exact absurd (List.mem_cons_self _ _) h
      | some str => simp [List.foldl_cons, yjsStep, specWalk, ih _ _ hops]
    | deleteOp n => simp [List.foldl_cons, yjsStep, specWalk, ih _ _ hops]
    | unknownOp => simp [List.foldl_cons, yjsStep_unknown, specWalk, ih _ _ hops]

/-- The fold grows the accumulator by one edit per recognized content
operation. -/
theorem yjsFold_length (doc : Txt) (delta : List DeltaOp) :
    ∀ (i : Nat) (acc : List MEdit),
      ((delta.foldl (yjsStep doc) (i, acc)).2).length =
        acc.length + (delta.filter isContentOp).length := by
  induction delta with
  | nil => intro i acc; simp
  | cons op ops ih =>
    intro i acc
    cases op <;> simp [List.foldl_cons, yjsStep, isContentOp, List.filter, ih] <;> omega

/-- A delta containing at least one insert or delete yields a non-empty edit
list. -/
theorem computeEdits_ne_nil (doc : Txt) (delta : List DeltaOp)
    (h : ∃ op ∈ delta, isContentOp op = true) : computeEdits doc delta ≠ [] := by
  obtain ⟨op, hmem, hop⟩ := h
  have hfilter : delta.filter isContentOp ≠ [] :=
    List.ne_nil_of_mem (List.mem_filter.2 ⟨hmem, hop⟩)
  have hpos : 0 < (delta.filter isContentOp).length := List.length_pos.2 hfilter
  intro hnil
  have hlen := yjsFold_length doc delta 0 []
  unfold computeEdits at hnil
  rw [hnil] at hlen
  simp at hlen
  omega

/-! ## Supporting lemmas: the guarded listeners -/

/-- A notification delivered while the guard is held is dropped, at any
fuel. -/
theorem yObserver_held : ∀ (n : Nat) (w : BindingW) (d : List DeltaOp),
    w.updating = true → yObserver n w d = w
  | 0, _, _, _ => rfl
  | n + 1, w, d, h => by simp [yObserver, h]

/-- A content notification delivered while the guard is held is dropped, at
any fuel. -/
theorem contentListener_held : ∀ (n : Nat) (w : BindingW) (c : List ChangeItem),
    w.updating = true → contentListener n w c = w
  | 0, _, _, _ => rfl
  | n + 1, w, c, h => by simp [contentListener, h]

/-- Closed form of one observer run from a quiescent binding: the fuel only
feeds the inner (dropped) re-entrant notification, so any positive fuel gives
the same result. -/
theorem yObserver_run (n : Nat) (w : BindingW) (d : List DeltaOp) (h : w.updating = false) :
    yObserver (n + 1) w d =
      if (computeEdits w.doc d).isEmpty then { w with updating := false }
      else
        { w with
          doc := applyEditBatch w.doc (computeEdits w.doc d)
          localBatches := w.localBatches + 1
          updating := false } := by
  simp only [yObserver, h, Bool.false_eq_true, if_false]
  by_cases he : (computeEdits w.doc d).isEmpty <;>
    simp [he, contentListener_held]

/-- Closed form of one content-listener run from a quiescent binding. -/
theorem contentListener_run (n : Nat) (w : BindingW) (c : List ChangeItem)
    (h : w.updating = false) :
    contentListener (n + 1) w c =
      { w with
        ytext := handleTextModelChangeTxt w.ytext c
        ytrans := w.ytrans + 1
        updating := false } := by
  simp only [contentListener, h, Bool.false_eq_true, if_false]
  by_cases he : handleTextModelChangeTxt w.ytext c = w.ytext <;>
    simp [he, yObserver_held]

/-- C2.  For every binding at most one propagation direction is active at a
time: a delta or change notification arriving while the `updating` flag is
held is dropped outright, and from a quiescent binding the flag is back to
false on every exit of either listener.  Applying a remote delta performs
zero `Y.Text` mutations (`ytext` and the transaction counter are untouched)
and exactly one local edit batch when the delta carries any insert or delete;
applying a local edit batch performs exactly one `ydoc.transact` and zero
re-entrant local edit batches (`doc` and the batch counter are untouched). -/
theorem c2_guard_no_echo :
    (∀ (w : BindingW) (d : List DeltaOp), w.updating = true → deliverRemote w d = w) ∧
    (∀ (w : BindingW) (c : List ChangeItem), w.updating = true → deliverLocal w c = w) ∧
    (∀ (w : BindingW) (d : List DeltaOp), w.updating = false →
      (deliverRemote w d).updating = false ∧
      (deliverRemote w d).ytext = w.ytext ∧
      (deliverRemote w d).ytrans = w.ytrans ∧
      ((∃ op ∈ d, isContentOp op = true) →
        (deliverRemote w d).localBatches = w.localBatches + 1)) ∧
    (∀ (w : BindingW) (c : List ChangeItem), w.updating = false →
      (deliverLocal w c).updating = false ∧
      (deliverLocal w c).doc = w.doc ∧
      (deliverLocal w c).localBatches = w.localBatches ∧
      (deliverLocal w c).ytrans = w.ytrans + 1) := by
  refine ⟨fun w d h => yObserver_held 2 w d h,
    fun w c h => contentListener_held 2 w c h, ?_, ?_⟩
  · intro w d h
    rw [deliverRemote, show (2 : Nat) = 1 + 1 from rfl, yObserver_run 1 w d h]
    by_cases he : (computeEdits w.doc d).isEmpty
    · refine ⟨by simp [he], by simp [he], by simp [he], ?_⟩
      intro hex
      exact absurd (List.isEmpty_iff.mp he) (computeEdits_ne_nil w.doc d hex)
    · exact ⟨by simp [he], by simp [he], by simp [he], fun _ => by simp [he]⟩
  · intro w c h
    rw [deliverLocal, show (2 : Nat) = 1 + 1 from rfl, contentListener_run 1 w c h]
    exact ⟨rfl, rfl, rfl, rfl⟩

/-- C2, witness: on a two-character binding, a delta dropping in while the
guard is held changes nothing; a one-insert delta from a quiescent binding
costs exactly one local edit batch and no `Y.Text` transaction; a one-insert
change notification costs exactly one transaction and no local batch. -/
theorem c2_guard_no_echo_witness :
    deliverRemote bwHeld d0 = bwHeld ∧
    (deliverRemote bw0 d0).localBatches = bw0.localBatches + 1 ∧
    (deliverRemote bw0 d0).ytrans = bw0.ytrans ∧
    (deliverLocal bw0 ch0).ytrans = bw0.ytrans + 1 ∧
    (deliverLocal bw0 ch0).localBatches = bw0.localBatches := by
  refine ⟨c2_guard_no_echo.1 bwHeld d0 rfl, ?_, ?_, ?_, ?_⟩
  · exact (c2_guard_no_echo.2.2.1 bw0 d0 rfl).2.2.2
      ⟨DeltaOp.insertOp (some ['X']), by decide, rfl⟩
  · exact (c2_guard_no_echo.2.2.1 bw0 d0 rfl).2.2.1
  · exact (c2_guard_no_echo.2.2.2 bw0 ch0 rfl).2.2.2
  · exact (c2_guard_no_echo.2.2.2 bw0 ch0 rfl).2.2.1

/-- C5.  The remote walk of `handleYjsChange` agrees with the spec's
description (cursor from 0, `retain` advances, `insert` records a zero-width
edit at the mapped position and advances by the text length, `delete` records
a same-range empty-text edit) whenever every insert payload is a string; an
unrecognized operation anywhere in the delta is skipped without disturbing
the rest; and a delta yielding no edits leaves the binding — and hence the
host document — completely unchanged. -/
theorem c5_remote_delta_walk :
    (∀ (doc : Txt) (delta : List DeltaOp), DeltaOp.insertOp none ∉ delta →
      computeEdits doc delta = specWalk doc 0 delta) ∧
    (∀ (doc : Txt) (d1 d2 : List DeltaOp),
      computeEdits doc (d1 ++ DeltaOp.unknownOp :: d2) = computeEdits doc (d1 ++ d2)) ∧
    (∀ (w : BindingW) (delta : List DeltaOp), w.updating = false →
      computeEdits w.doc delta = [] → deliverRemote w delta = w) := by
  refine ⟨?_, ?_, ?_⟩
  · intro doc delta h
    simpa using yjsFold_spec doc delta 0 [] h
  · intro doc d1 d2
    unfold computeEdits
    rw [List.foldl_append, List.foldl_append, List.foldl_cons, yjsStep_unknown]
  · intro w delta h hnil
    rw [deliverRemote, show (2 : Nat) = 1 + 1 from rfl, yObserver_run 1 w delta h,
      if_pos (by simp [hnil])]
    obtain ⟨dc, yt, u, lb, ytr⟩ := w
    simp only at h
    subst h
    rfl

/-- C5, witness: the walk on a concrete retain-insert delta, and a
retain-only delta leaving a quiescent binding untouched. -/
theorem c5_remote_delta_walk_witness :
    computeEdits ['a', 'b'] d0 = specWalk ['a', 'b'] 0 d0 ∧
    computeEdits ['a', 'b'] d0 = [⟨⟨1, 2, 1, 2⟩, ['X']⟩] ∧
    deliverRemote bw0 [DeltaOp.retainOp 2] = bw0 := by
  refine ⟨c5_remote_delta_walk.1 ['a', 'b'] d0 (by decide), by decide,
    c5_remote_delta_walk.2.2 bw0 [DeltaOp.retainOp 2] rfl (by decide)⟩

/-! ## Supporting lemmas: the connection service -/

/-- Retry branch of `handleDisconnect`: below the bound, the counter is
incremented and one capped retry is scheduled while the state stays
Disconnected. -/
theorem handleDisconnect_retry (cfg : Config) (s : Svc)
    (h : s.reconnectAttempts < cfg.reconnectAttempts) :
    (handleDisconnect cfg s).1.state = CollaborationState.disconnected ∧
    (handleDisconnect cfg s).1.reconnectAttempts = s.reconnectAttempts + 1 ∧
    (handleDisconnect cfg s).1.reconnectTimeout =
      some (min (cfg.reconnectDelay * 2 ^ (s.reconnectAttempts + 1)) 30000) := by
  unfold handleDisconnect setState
  by_cases hst : s.state = CollaborationState.disconnected <;> simp [hst, h]

/-- Exhausted branch of `handleDisconnect`: at or above the bound, the state
moves to Error and no retry is scheduled (the stored timer field is left
as it was). -/
theorem handleDisconnect_exhausted (cfg : Config) (s : Svc)
    (h : cfg.reconnectAttempts ≤ s.reconnectAttempts) :
    (handleDisconnect cfg s).1.state = CollaborationState.error ∧
    (handleDisconnect cfg s).1.reconnectTimeout = s.reconnectTimeout ∧
    (handleDisconnect cfg s).1.reconnectAttempts = s.reconnectAttempts := by
  unfold handleDisconnect setState
  by_cases hst : s.state = CollaborationState.disconnected <;>
    simp [hst, Nat.not_lt.mpr h]

/-- C1.  On an unexpected transport close with the counter strictly below the
bound, `handleDisconnect` increments the counter, stays Disconnected, and
schedules exactly one retry after `min(reconnectDelay * 2 ^ attempts, 30000)`
milliseconds computed from the incremented counter; with the default
`reconnectDelay = 1000` the delays for attempts 1 through 5 are 2000, 4000,
8000, 16000 and 30000 ms; once the counter has reached the bound the state
moves to Error and no retry is scheduled. -/
theorem c1_reconnect_backoff :
    (∀ (cfg : Config) (s : Svc), s.reconnectAttempts < cfg.reconnectAttempts →
      (handleDisconnect cfg s).1.state = CollaborationState.disconnected ∧
      (handleDisconnect cfg s).1.reconnectAttempts = s.reconnectAttempts + 1 ∧
      (handleDisconnect cfg s).1.reconnectTimeout =
        some (min (cfg.reconnectDelay * 2 ^ (s.reconnectAttempts + 1)) 30000)) ∧
    ((List.range 5).map (fun a =>
        (handleDisconnect defaultConfig
          { connectedSvc with reconnectAttempts := a }).1.reconnectTimeout) =
      [some 2000, some 4000, some 8000, some 16000, some 30000]) ∧
    (∀ (cfg : Config) (s : Svc), cfg.reconnectAttempts ≤ s.reconnectAttempts →
      (handleDisconnect cfg s).1.state = CollaborationState.error ∧
      (handleDisconnect cfg s).1.reconnectTimeout = s.reconnectTimeout) := by
  refine ⟨fun cfg s h => handleDisconnect_retry cfg s h, by decide,
    fun cfg s h => ⟨(handleDisconnect_exhausted cfg s h).1,
      (handleDisconnect_exhausted cfg s h).2.1⟩⟩

/-- C1, witness: a connected session with a fresh counter schedules a 2000 ms
retry on close, and a session at the bound moves to Error. -/
theorem c1_reconnect_backoff_witness :
    connectedSvc.reconnectAttempts < defaultConfig.reconnectAttempts ∧
    (handleDisconnect defaultConfig connectedSvc).1.reconnectTimeout = some 2000 ∧
    (handleDisconnect { defaultConfig with reconnectAttempts := 5 }
      { connectedSvc with reconnectAttempts := 5 }).1.state = CollaborationState.error := by
  refine ⟨by decide, ?_, ?_⟩
  · have h := (c1_reconnect_backoff.1 defaultConfig connectedSvc (by decide)).2.2
    rw [h]; decide
  · exact (c1_reconnect_backoff.2.2 { defaultConfig with reconnectAttempts := 5 }
      { connectedSvc with reconnectAttempts := 5 } (by decide)).1

/-- C3, evaluation at the failing input.  An explicit `disconnect()` on a
connected session does cancel the pending timer and reach Disconnected — but
`WebSocket.close()` makes the transport deliver a close event to the
`onclose` handler installed by `connect()` and never removed, and that
handler is exactly `handleDisconnect`, which then schedules a 2000 ms retry
(and increments the attempt counter) as a consequence of the explicit
disconnect itself, contrary to the claim that retry is suppressed. -/
theorem c3_explicit_disconnect_schedules_retry :
    (disconnect connectedSvc).st.state = CollaborationState.disconnected ∧
    (disconnect connectedSvc).st.reconnectTimeout = none ∧
    (disconnect connectedSvc).closeEventPending = true ∧
    (handleDisconnect defaultConfig (disconnect connectedSvc).st).1.reconnectTimeout =
      some 2000 ∧
    (handleDisconnect defaultConfig (disconnect connectedSvc).st).1.reconnectAttempts = 1 := by
  decide

/-- C6, counterexample.  Calling `disconnect()` a second time on an
already-disconnected session fires a second `onDidChangeUsers([])` event
(line 223 fires unconditionally), so the second call does emit a duplicate
users-changed event. -/
theorem c6_counterexample :
    Ev.usersChanged [] ∈ (disconnect (disconnect twoUserSvc).st).events := by
  decide

/-- C6, amended.  A second `disconnect()` on an already-disconnected session
produces no error, changes no state field, and emits no state-changed event —
but it does fire one `onDidChangeUsers([])` event, exactly as every
`disconnect()` call does; disposing a Binding twice is idempotent. -/
theorem c6_idempotent_disposal :
    (∀ s : Svc,
      (disconnect (disconnect s).st).st = (disconnect s).st ∧
      (disconnect (disconnect s).st).events = [Ev.usersChanged []] ∧
      emittedStates (disconnect (disconnect s).st).events = []) ∧
    (∀ b : BindingReg, disposeBinding (disposeBinding b) = disposeBinding b) := by
  constructor
  · intro s
    obtain ⟨st, us, cu, ra, rt, w, aw, yl⟩ := s
    by_cases h : st = CollaborationState.disconnected <;>
      simp [disconnect, setState, h, emittedStates, List.filterMap_cons]
  · intro b
    rfl

/-- C7.  `connect()` is a no-op returning without any throw, state change or
event when the state is already Connected or Connecting, and when the feature
is disabled it fails with a configuration error before the state ever enters
Connecting (state and events untouched). -/
theorem c7_connect_guards :
    (∀ (cfg : Config) (s : Svc),
      s.state = CollaborationState.connected ∨ s.state = CollaborationState.connecting →
      connectStep cfg s = (s, [], ConnectOutcome.alreadyActive)) ∧
    (∀ (cfg : Config) (s : Svc), s.state ≠ CollaborationState.connected →
      s.state ≠ CollaborationState.connecting → cfg.enabled = false →
      connectStep cfg s = (s, [], ConnectOutcome.configError)) := by
  constructor
  · intro cfg s h
    unfold connectStep
    rw [if_pos h]
  · intro cfg s h1 h2 h3
    unfold connectStep
    rw [if_neg (not_or.mpr ⟨h1, h2⟩), if_pos h3]

/-- C7, witness: an already-connected session and a disabled configuration at
concrete inputs. -/
theorem c7_connect_guards_witness :
    connectStep defaultConfig connectedSvc = (connectedSvc, [], ConnectOutcome.alreadyActive) ∧
    connectStep { defaultConfig with enabled := false } initialSvc =
      (initialSvc, [], ConnectOutcome.configError) := by
  exact ⟨c7_connect_guards.1 defaultConfig connectedSvc (Or.inl rfl),
    c7_connect_guards.2 { defaultConfig with enabled := false } initialSvc
      (by decide) (by decide) rfl⟩

/-- C8.  Every transition into Connected runs the `ws.onopen` handler, which
resets the attempt counter to 0, so the next unexpected close starts the
backoff over: with `reconnectDelay = 1000` and a positive retry budget it
schedules 2000 ms regardless of how many attempts had accumulated before. -/
theorem c8_attempts_reset_on_connected :
    ∀ (u : CollabUser) (aw : List AwState) (s : Svc),
      (handleOpen u aw s).1.reconnectAttempts = 0 ∧
      (handleOpen u aw s).1.state = CollaborationState.connected ∧
      (∀ cfg : Config, cfg.reconnectDelay = 1000 → 0 < cfg.reconnectAttempts →
        (handleDisconnect cfg (handleOpen u aw s).1).1.reconnectTimeout = some 2000) := by
  intro u aw s
  have hfields : (handleOpen u aw s).1.reconnectAttempts = 0 ∧
      (handleOpen u aw s).1.state = CollaborationState.connected := by
    unfold handleOpen updateUsers setState
    by_cases hst : s.state = CollaborationState.connected <;>
      cases haw : s.awareness <;> simp [hst, haw]
  refine ⟨hfields.1, hfields.2, ?_⟩
  intro cfg hdelay hpos
  have hlt : (handleOpen u aw s).1.reconnectAttempts < cfg.reconnectAttempts := by
    rw [hfields.1]; exact hpos
  have h2 := (handleDisconnect_retry cfg _ hlt).2.2
  rw [h2, hfields.1, hdelay]
  decide

/-- C8, witness: after three failed attempts, a successful open resets the
counter and the next close schedules 2000 ms. -/
theorem c8_attempts_reset_on_connected_witness :
    (handleOpen u1ex [AwState.mk (some u1ex)]
      { initialSvc with
        reconnectAttempts := 3
        awareness := some [AwState.mk none]
        yjsLoaded := true
        ws := true }).1.reconnectAttempts = 0 ∧
    (handleDisconnect defaultConfig
      (handleOpen u1ex [AwState.mk (some u1ex)]
        { initialSvc with
          reconnectAttempts := 3
          awareness := some [AwState.mk none]
          yjsLoaded := true
          ws := true }).1).1.reconnectTimeout = some 2000 := by
  have h := c8_attempts_reset_on_connected u1ex [AwState.mk (some u1ex)]
    { initialSvc with
      reconnectAttempts := 3
      awareness := some [AwState.mk none]
      yjsLoaded := true
      ws := true }
  exact ⟨h.1, h.2.2 defaultConfig rfl (by decide)⟩

/-- C9.  On an awareness change, `updateUsers` rebuilds the participant list
wholesale from the snapshot (entries without a user record are silently
dropped), stores it, and then emits exactly that full list; the result
depends only on the snapshot, never on the previous `_users` value. -/
theorem c9_presence_wholesale :
    ∀ (s : Svc) (states : List AwState), s.awareness = some states →
      (updateUsers s).1.users = (states.map AwState.user).filterMap id ∧
      (updateUsers s).2 =
        [Ev.usersChanged ((states.map AwState.user).filterMap id)] ∧
      (∀ t : Svc, t.awareness = some states →
        (updateUsers t).1.users = (updateUsers s).1.users) := by
  intro s states h
  refine ⟨by simp [updateUsers, h], by simp [updateUsers, h], ?_⟩
  intro t ht
  simp [updateUsers, h, ht]

/-- C9, witness: from a two-participant session, an awareness change whose
snapshot only retains the first participant emits exactly that one remaining
participant. -/
theorem c9_presence_wholesale_witness :
    (updateUsers { twoUserSvc with awareness := some [AwState.mk (some u1ex)] }).2 =
      [Ev.usersChanged [u1ex]] ∧
    (updateUsers { twoUserSvc with awareness := some [AwState.mk (some u1ex)] }).1.users =
      [u1ex] := by
  have h := c9_presence_wholesale
    { twoUserSvc with awareness := some [AwState.mk (some u1ex)] }
    [AwState.mk (some u1ex)] rfl
  refine ⟨?_, ?_⟩
  · rw [h.2.1]; decide
  · rw [h.1]; decide

/-! ## Supporting lemmas: the state-changed event trace -/

/-- Emitted states distribute over event concatenation. -/
theorem emittedStates_append (a b : List Ev) :
    emittedStates (a ++ b) = emittedStates a ++ emittedStates b := by
  simp [emittedStates, List.filterMap_append]

/-- Chains split across concatenation at the last state of the prefix. -/
theorem stChain_append (p : CollaborationState) (xs ys : List CollaborationState) :
    stChain p (xs ++ ys) ↔ stChain p xs ∧ stChain (stLast p xs) ys := by
  induction xs generalizing p with
  | nil => simp [stChain, stLast]
  | cons v vs ih => simp [stChain, stLast, ih, and_assoc]

/-- The last state of a concatenation. -/
theorem stLast_append (p : CollaborationState) (xs ys : List CollaborationState) :
    stLast p (xs ++ ys) = stLast (stLast p xs) ys := by
  induction xs generalizing p with
  | nil => rfl
  | cons v vs ih => simp [stLast, ih]

/-- Traces compose sequentially. -/
theorem stateTrace_comp {p q r : CollaborationState} {e1 e2 : List Ev}
    (h1 : StateTrace p e1 q) (h2 : StateTrace q e2 r) : StateTrace p (e1 ++ e2) r := by
  unfold StateTrace at *
  rw [emittedStates_append, stChain_append, stLast_append, h1.2]
  exact ⟨⟨h1.1, h2.1⟩, h2.2⟩

/-- The empty event list is a trace that stays put. -/
theorem stateTrace_nil (p : CollaborationState) : StateTrace p [] p :=
  ⟨trivial, rfl⟩

/-- A users-changed event carries no state, so it traces trivially. -/
theorem stateTrace_users (p : CollaborationState) (us : List CollabUser) :
    StateTrace p [Ev.usersChanged us] p := by
  simp [StateTrace, emittedStates, List.filterMap_cons, stChain, stLast]

/-- The setter only ever emits a state different from the current one, so one
`setState` call is a trace. -/
theorem setState_trace (s : Svc) (st : CollaborationState) :
    StateTrace s.state (setState s st).2 (setState s st).1.state := by
  unfold setState
  by_cases h : s.state = st <;>
    simp [h, StateTrace, emittedStates, List.filterMap_cons, stChain, stLast]

/-- `updateUsers` emits no state events. -/
theorem updateUsers_trace (s : Svc) :
    StateTrace s.state (updateUsers s).2 (updateUsers s).1.state := by
  cases haw : s.awareness with
  | none => simpa [updateUsers, haw] using stateTrace_nil s.state
  | some states =>
    simpa [updateUsers, haw] using
      stateTrace_users s.state ((states.map AwState.user).filterMap id)

/-- The synchronous part of `connect()` is a trace. -/
theorem connectStep_trace (cfg : Config) (s : Svc) :
    StateTrace s.state (connectStep cfg s).2.1 (connectStep cfg s).1.state := by
  unfold connectStep
  by_cases h1 : s.state = CollaborationState.connected ∨ s.state = CollaborationState.connecting
  · simpa [h1] using stateTrace_nil s.state
  · by_cases h2 : cfg.enabled = false
    · simpa [h1, h2] using stateTrace_nil s.state
    · simpa [h1, h2] using setState_trace s CollaborationState.connecting

/-- The `ws.onopen` handler is a trace. -/
theorem handleOpen_trace (u : CollabUser) (aw : List AwState) (s : Svc) :
    StateTrace s.state (handleOpen u aw s).2 (handleOpen u aw s).1.state := by
  by_cases hst : s.state = CollaborationState.connected <;>
    cases haw : s.awareness <;>
      simp [handleOpen, setState, updateUsers, hst, haw, StateTrace, emittedStates,
        stChain, stLast, List.filterMap_cons, List.filterMap_append]

/-- `handleDisconnect` is a trace. -/
theorem handleDisconnect_trace (cfg : Config) (s : Svc) :
    StateTrace s.state (handleDisconnect cfg s).2 (handleDisconnect cfg s).1.state := by
  by_cases hst : s.state = CollaborationState.disconnected <;>
    by_cases hlt : s.reconnectAttempts < cfg.reconnectAttempts <;>
      simp [handleDisconnect, setState, hst, hlt, StateTrace, emittedStates, stChain,
        stLast, List.filterMap_cons, List.filterMap_append]

/-- `disconnect()` is a trace. -/
theorem disconnect_trace (s : Svc) :
    StateTrace s.state (disconnect s).events (disconnect s).st.state := by
  by_cases hst : s.state = CollaborationState.disconnected <;>
    simp [disconnect, setState, hst, StateTrace, emittedStates, stChain, stLast,
      List.filterMap_cons, List.filterMap_append]

/-- Every single operation is a trace. -/
theorem svcStep_trace (cfg : Config) (s : Svc) (op : SvcOp) :
    StateTrace s.state (svcStep cfg s op).2 (svcStep cfg s op).1.state := by
  cases op with
  | connectOp => simpa [svcStep] using connectStep_trace cfg s
  | openOp u aw => simpa [svcStep] using handleOpen_trace u aw s
  | errorOp => simpa [svcStep, handleWsError] using setState_trace s CollaborationState.error
  | closeOp => simpa [svcStep] using handleDisconnect_trace cfg s
  | disconnectOp => simpa [svcStep] using disconnect_trace s
  | awarenessOp states =>
    simpa [svcStep] using updateUsers_trace { s with awareness := some states }
  | retryOp =>
    cases hrt : s.reconnectTimeout with
    | none => simpa [svcStep, hrt] using stateTrace_nil s.state
    | some d => simpa [svcStep, hrt] using connectStep_trace cfg { s with reconnectTimeout := none }

/-- Any operation sequence is a trace. -/
theorem svcRun_trace (cfg : Config) (ops : List SvcOp) :
    ∀ s : Svc, StateTrace s.state (svcRun cfg s ops).2 (svcRun cfg s ops).1.state := by
  induction ops with
  | nil => intro s; simpa [svcRun] using stateTrace_nil s.state
  | cons op ops ih =>
    intro s
    simp only [svcRun]
    exact stateTrace_comp (svcStep_trace cfg s op) (ih (svcStep cfg s op).1)

/-- C10.  Every state assignment goes through `setState`, which fires the
state-changed event exactly when the new state differs from the stored one;
consequently, over any sequence of operations (connect, transport open, error
and close callbacks, explicit disconnect, awareness changes, retry firing),
the emitted state-changed events never carry the same state twice in a row —
each emitted state differs from its predecessor, the predecessor of the first
being the state held before the sequence started. -/
theorem c10_no_duplicate_state_events :
    (∀ (s : Svc) (st : CollaborationState), (setState s st).2 ≠ [] ↔ st ≠ s.state) ∧
    (∀ (cfg : Config) (s : Svc) (ops : List SvcOp),
      stChain s.state (emittedStates (svcRun cfg s ops).2)) := by
  constructor
  · intro s st
    unfold setState
    by_cases h : s.state = st
    · simp [h]
    · simp only [h, if_false]
      refine iff_of_true (by simp) fun he => h he.symm
  · intro cfg s ops
    exact (svcRun_trace cfg ops s).1

/-- C10, witness: a connect / open / close run from the initial state yields
a chain of pairwise-distinct emitted states, and a concrete `setState` call
fires exactly when the state changes. -/
theorem c10_no_duplicate_state_events_witness :
    stChain initialSvc.state (emittedStates (svcRun defaultConfig initialSvc
      [SvcOp.connectOp, SvcOp.openOp u1ex [AwState.mk (some u1ex)], SvcOp.closeOp]).2) ∧
    ((setState initialSvc CollaborationState.connecting).2 ≠ [] ↔
      CollaborationState.connecting ≠ initialSvc.state) :=
  ⟨c10_no_duplicate_state_events.2 defaultConfig initialSvc _,
    c10_no_duplicate_state_events.1 initialSvc CollaborationState.connecting⟩
